import Mathlib

/-!
Verification of the algorithm exercises and OOP demonstration classes of the
BSCS-Notes C++ repository, shallowly embedded in Lean 4.

Each C++ function is translated into an executable Lean definition that follows
the source line by line; machine integers on the inputs considered are small
enough that no overflow occurs, so `Nat`/`Int` model `int` faithfully, and
`std::vector`/`std::string` are modelled by `List`.  Exceptions are modelled by
`Except`, or by a returned pair `state × Option exception` when the claim is
about the state left behind by a throwing member function.
-/

/-! ## LeetCode problem 12: CheckDivBySumndProduct.cpp

`Solution::checkDivisibility(int n)`: the while loop accumulates the digit sum
(starting at 0) and digit product (starting at 1) of `n`, then the function
tests `n % (digitSum + digitProduct)`.  For positive `n` every intermediate
C++ value is nonnegative and far below `INT_MAX`, so `Nat` models the `int`
arithmetic exactly. -/

/-- The digit-accumulation while loop of `Solution::checkDivisibility`:
state `(temp, digitSum, digitProduct)`; each iteration takes
`remain = temp % 10`, adds it to the sum, multiplies it into the product and
divides `temp` by ten.  Returns the final `(digitSum, digitProduct)`. -/
def digitLoop (temp digitSum digitProduct : Nat) : Nat × Nat :=
  if temp ≠ 0 then
    digitLoop (temp / 10) (digitSum + temp % 10) (digitProduct * (temp % 10))
  else (digitSum, digitProduct)
decreasing_by exact Nat.div_lt_self (Nat.pos_of_ne_zero (by assumption)) (by omega)

/-- `Solution::checkDivisibility` of 12-CheckDivBySumndProduct.cpp:
computes `res = digitSum + digitProduct` and returns `false` exactly when
`n % res` is nonzero (the C++ `if (n%res) return false; return true;`). -/
def checkDivisibility (n : Nat) : Bool :=
  let p := digitLoop n 0 1
  let res := p.1 + p.2
  if n % res ≠ 0 then false else true

/-- The condition stated by the documentation comment of the file (lines 4-8):
`n` is divisible by either the sum or the product of its digits.  Written from
the spec and comment, to compare against `checkDivisibility`.  A product of 0
divides nothing, matching the comment's reading of divisibility. -/
def specDivisibleBySumOrProduct (n : Nat) : Bool :=
  let p := digitLoop n 0 1
  (p.1 ≠ 0 && n % p.1 = 0) || (p.2 ≠ 0 && n % p.2 = 0)

/-! ## Dry-run problem 3 of 02-Bank-Management.cpp (lines 1369-1386)

The quiz `Bank` class holds one `int balance`; `operator+` returns
`Bank(balance + other.balance + 100)` and `operator<<` prints
`"Bank($" << bank.balance << ")"`. -/

/-- The quiz `Bank` class of dry-run problem 3: a single `int balance`. -/
structure Bank where
  balance : Int

/-- `Bank::operator+` of dry-run problem 3:
`return Bank(balance + other.balance + 100);`. -/
def Bank.add (b other : Bank) : Bank :=
  Bank.mk (b.balance + other.balance + 100)

/-- `operator<<(ostream&, const Bank&)` of dry-run problem 3, as the string it
appends to the stream: `"Bank($" << bank.balance << ")"`. -/
def Bank.printed (bank : Bank) : String :=
  "Bank($" ++ toString bank.balance ++ ")"

/-! ## Dry-run problem 1 of 02-Bank-Management.cpp (lines 1333-1351)

`Base(int val)` prints `"Base(" << x << ")"`, its virtual destructor prints
`"~Base(" << x << ")"`; `Derived(int,int)` runs `Base(val1)` first and then
prints `"Derived(" << y << ")"`, its destructor prints `"~Derived(" << y <<
")"`.  `new Derived(10,20)` bound to a `Base*` and then `delete`d through the
virtual destructor emits: base constructor, derived constructor body, derived
destructor body, base destructor — in that order.  The model records the
console output of each lifecycle step as a string. -/

/-- Output of the `Base(int)` constructor body: `"Base(" << x << ")"`. -/
def baseCtorOut (x : Int) : String := "Base(" ++ toString x ++ ")"

/-- Output of the `~Base()` destructor body: `"~Base(" << x << ")"`. -/
def baseDtorOut (x : Int) : String := "~Base(" ++ toString x ++ ")"

/-- Output of the `Derived(int,int)` constructor: C++ runs the base-class
constructor `Base(val1)` before the derived constructor body, which prints
`"Derived(" << y << ")"`. -/
def derivedCtorOut (val1 val2 : Int) : String :=
  baseCtorOut val1 ++ ("Derived(" ++ toString val2 ++ ")")

/-- Output of destroying a `Derived` through a `Base*` with a virtual
destructor: the `~Derived` body runs first, then `~Base` — the reverse of
construction order. -/
def derivedDtorOut (val1 val2 : Int) : String :=
  ("~Derived(" ++ toString val2 ++ ")") ++ baseDtorOut val1

/-- Console output of the quiz `main` of dry-run problem 1:
`Base* ptr = new Derived(10, 20); delete ptr;` concatenates the construction
output and the destruction output. -/
def problem1Out : String := derivedCtorOut 10 20 ++ derivedDtorOut 10 20

/-! ### Theorems for the digit-divisibility claims -/

/-- The digit loop only ever adds to the running digit sum. -/
theorem digitLoop_fst_le (temp digitSum digitProduct : Nat) :
    digitSum ≤ (digitLoop temp digitSum digitProduct).1 := by
  induction temp using Nat.strong_induction_on generalizing digitSum digitProduct with
  | _ temp ih =>
    rw [digitLoop]
    by_cases h : temp ≠ 0
    · rw [if_pos h]
      exact le_trans (Nat.le_add_right _ _)
        (ih (temp / 10) (Nat.div_lt_self (Nat.pos_of_ne_zero h) (by omega)) _ _)
    · rw [if_neg h]

/-- A nonzero `temp` contributes at least one to the digit sum: its most
significant digit is nonzero. -/
theorem digitLoop_fst_pos (temp digitSum digitProduct : Nat) (h : temp ≠ 0) :
    digitSum + 1 ≤ (digitLoop temp digitSum digitProduct).1 := by
  induction temp using Nat.strong_induction_on generalizing digitSum digitProduct with
  | _ temp ih =>
    rw [digitLoop, if_pos h]
    by_cases h10 : temp / 10 = 0
    · rw [digitLoop, h10, if_neg (by omega)]
      have hlt : temp < 10 := by omega
      have hrem : temp % 10 = temp := Nat.mod_eq_of_lt hlt
      simp only [hrem]
      omega
    · have := ih (temp / 10) (Nat.div_lt_self (Nat.pos_of_ne_zero h) (by omega))
        (digitSum + temp % 10) (digitProduct * (temp % 10)) h10
      omega

/-- Claim C9: for every n ≥ 1 the divisor `res = digitSum + digitProduct`
computed inside `Solution::checkDivisibility` is at least 1 — the most
significant digit of a positive n is nonzero, so the digit sum alone is
already at least 1 — hence `n % res` never divides by zero. -/
theorem C9_divisor_pos (n : Nat) (h : 1 ≤ n) :
    1 ≤ (digitLoop n 0 1).1 ∧ 0 < (digitLoop n 0 1).1 + (digitLoop n 0 1).2 := by
  have h1 : 0 + 1 ≤ (digitLoop n 0 1).1 := digitLoop_fst_pos n 0 1 (by omega)
  omega

/-- Witness for C9 at n = 12. -/
theorem C9_divisor_pos_witness :
    1 ≤ 12 ∧ (1 ≤ (digitLoop 12 0 1).1 ∧ 0 < (digitLoop 12 0 1).1 + (digitLoop 12 0 1).2) :=
  ⟨by omega, C9_divisor_pos 12 (by omega)⟩

/-- Claim C4: at n = 12 the code returns `false`, although 12 is divisible by
its digit sum 3, so the documented property (divisible by either the digit sum
or the digit product) demands `true`: the code tests divisibility by the SUM
`digitSum + digitProduct` (5 for n = 12) instead of testing the two divisors
separately, contradicting the example in its own header comment
(`Input: n = 12, Output: true`). -/
theorem C4_checkDivisibility_12 :
    checkDivisibility 12 = false ∧ specDivisibleBySumOrProduct 12 = true := by
  constructor
  · simp [checkDivisibility, digitLoop]
  · simp [specDivisibleBySumOrProduct, digitLoop]

/-- Claim C5: the hand-worked answer of dry-run problem 3 is correct —
printing `b1 + b2` for `Bank b1(1000), b2(2000)` outputs exactly
`Bank($3100)`, since `operator+` returns `Bank(1000 + 2000 + 100)`. -/
theorem C5_bank_dry_run :
    (Bank.add (Bank.mk 1000) (Bank.mk 2000)).printed = "Bank($3100)" := by
  rfl

/-- Claim C6: the hand-worked answer of dry-run problem 1 is correct —
`Base* ptr = new Derived(10, 20); delete ptr;` prints exactly
`Base(10)Derived(20)~Derived(20)~Base(10)`: the base constructor runs before
the derived constructor body, and the virtual destructors run in reverse
order. -/
theorem C6_lifecycle_dry_run :
    problem1Out = "Base(10)Derived(20)~Derived(20)~Base(10)" := by
  rfl

/-! ## LeetCode problem 9: Symmetric-Tree.cpp

`TreeNode` with `int val` and left/right child pointers; a null pointer is the
empty tree.  `Solution::isSymmetric` returns `false` for a null root and
otherwise calls `isMirror(root->left, root->right)`. -/

/-- A C++ `TreeNode*`: either `nullptr` or a node with an `int` value and two
child pointers. -/
inductive TreeNode where
  | nil : TreeNode
  | node (val : Int) (left right : TreeNode) : TreeNode
deriving DecidableEq

/-- `Solution::isMirror` of 09-Symmetric-Tree.cpp: both null — true; exactly
one null — false; otherwise values equal and the children mirror crosswise. -/
def isMirror : TreeNode → TreeNode → Bool
  | .nil, .nil => true
  | .nil, .node _ _ _ => false
  | .node _ _ _, .nil => false
  | .node v1 l1 r1, .node v2 l2 r2 =>
      v1 == v2 && isMirror l1 r2 && isMirror r1 l2

/-- `Solution::isSymmetric` of 09-Symmetric-Tree.cpp:
`if (!root) return false; return isMirror(root->left, root->right);`. -/
def isSymmetric : TreeNode → Bool
  | .nil => false
  | .node _ l r => isMirror l r

/-- The mirror image of a binary tree: recursively swap the two children.
A tree is "a mirror of itself" (symmetric around its center) exactly when
`mirror t = t`. -/
def mirror : TreeNode → TreeNode
  | .nil => .nil
  | .node v l r => .node v (mirror r) (mirror l)

/-- `isMirror a b` decides whether `a` is the mirror image of `b`. -/
theorem isMirror_iff (a b : TreeNode) : isMirror a b = true ↔ a = mirror b := by
  induction a generalizing b with
  | nil => cases b <;> simp [isMirror, mirror]
  | node v1 l1 r1 ihl ihr =>
    cases b with
    | nil => simp [isMirror, mirror]
    | node v2 l2 r2 =>
      simp only [isMirror, mirror, Bool.and_eq_true, beq_iff_eq, TreeNode.node.injEq]
      rw [ihl, ihr]
      tauto

/-- Taking the mirror image twice is the identity. -/
theorem mirror_mirror (t : TreeNode) : mirror (mirror t) = t := by
  induction t with
  | nil => rfl
  | node v l r ihl ihr => simp [mirror, ihl, ihr]

/-- Claim C3 counterexample: the claim quantifies over every tree including
the empty tree, but `isSymmetric` returns `false` on a null root although the
empty tree is a mirror of itself. -/
theorem C3_empty_tree_counterexample :
    ¬ (isSymmetric TreeNode.nil = true ↔ mirror TreeNode.nil = TreeNode.nil) := by
  simp [isSymmetric, mirror]

/-- Claim C3 amended: `isSymmetric` returns `false` on the empty tree, and for
every nonempty tree it returns `true` exactly when the tree is a mirror of
itself. -/
theorem C3_isSymmetric_amended :
    isSymmetric TreeNode.nil = false ∧
    ∀ (v : Int) (l r : TreeNode),
      (isSymmetric (TreeNode.node v l r) = true ↔
        mirror (TreeNode.node v l r) = TreeNode.node v l r) := by
  refine ⟨rfl, fun v l r => ?_⟩
  simp only [isSymmetric, mirror, TreeNode.node.injEq, isMirror_iff]
  constructor
  · intro h
    refine ⟨trivial, h.symm, ?_⟩
    rw [h, mirror_mirror]
  · intro ⟨_, h1, _⟩
    exact h1.symm

/-! ## LeetCode problem 10: IsSubsequence.cpp

`Solution::isSubsequence(string s, string t)`: two indices `i` into `s` and
`j` into `t`; while both are in range, `i` advances when `s[i] == t[j]` and
`j` advances every iteration; the function returns `i == s.length()`.
Strings are modelled as `List Char`; the `getD` default is never read because
every access is guarded by the loop bound. -/

/-- The two-pointer while loop of `Solution::isSubsequence`, returning the
final value of `i`. -/
def subLoop (s t : List Char) (i j : Nat) : Nat :=
  if i < s.length ∧ j < t.length then
    if s.getD i 'a' = t.getD j 'a' then subLoop s t (i + 1) (j + 1)
    else subLoop s t i (j + 1)
  else i
termination_by t.length - j
decreasing_by all_goals omega

/-- `Solution::isSubsequence` of 10-IsSubsequence.cpp:
run the loop from `i = j = 0` and return `i == s.length()`. -/
def isSubsequence (s t : List Char) : Bool :=
  subLoop s t 0 0 == s.length

/-- The two-pointer loop reaches the end of `s` exactly when the unscanned
part of `s` is a subsequence of the unscanned part of `t`.  Stated with an
explicit bound `k` on `t.length - j` to drive the induction. -/
theorem subLoop_eq_length_iff (k : Nat) (s t : List Char) (i j : Nat)
    (hk : t.length - j ≤ k) (hi : i ≤ s.length) :
    (subLoop s t i j = s.length ↔ (s.drop i).Sublist (t.drop j)) := by
  induction k generalizing i j with
  | zero =>
    have hj : t.length ≤ j := by omega
    rw [subLoop, if_neg (by omega)]
    rw [List.drop_eq_nil_of_le hj, List.sublist_nil, List.drop_eq_nil_iff]
    omega
  | succ k ih =>
    by_cases hc : i < s.length ∧ j < t.length
    · obtain ⟨his, hjt⟩ := hc
      rw [subLoop, if_pos ⟨his, hjt⟩]
      have hs := List.drop_eq_getElem_cons his
      have ht := List.drop_eq_getElem_cons hjt
      rw [List.getD_eq_getElem s 'a' his, List.getD_eq_getElem t 'a' hjt]
      by_cases he : s[i] = t[j]
      · rw [if_pos he, ih (i + 1) (j + 1) (by omega) (by omega), hs, ht, he]
        exact (List.cons_sublist_cons).symm
      · rw [if_neg he, ih i (j + 1) (by omega) hi]
        constructor
        · intro h
          rw [ht]
          exact List.Sublist.cons _ h
        · intro h
          rw [ht, List.sublist_cons_iff] at h
          rcases h with h | ⟨r, hr, _⟩
          · exact h
          · rw [hs] at hr
            exact absurd (List.head_eq_of_cons_eq hr) he
    · rw [subLoop, if_neg hc]
      rcases Nat.lt_or_ge i s.length with his | his
      · have hj : t.length ≤ j := by omega
        rw [List.drop_eq_nil_of_le hj, List.sublist_nil, List.drop_eq_nil_iff]
        omega
      · have : i = s.length := by omega
        subst this
        simp [List.drop_length, List.nil_sublist]

/-- Claim C2: `Solution::isSubsequence(s, t)` returns true exactly when `s` is
a subsequence of `t` (the `List.Sublist` relation: `s` is obtained from `t` by
deleting characters without disturbing relative positions), and in particular
it returns true for every `t` when `s` is empty. -/
theorem C2_isSubsequence_correct (s t : List Char) :
    (isSubsequence s t = true ↔ s.Sublist t) ∧ isSubsequence [] t = true := by
  constructor
  · rw [isSubsequence, beq_iff_eq,
      subLoop_eq_length_iff (t.length) s t 0 0 (by omega) (by omega)]
    simp
  · rw [isSubsequence, beq_iff_eq,
      subLoop_eq_length_iff (t.length) ([] : List Char) t 0 0 (by omega) (by omega)]
    simp

/-! ## 02-Bank-Management.cpp: `Account::withdraw`

`Account` holds `accountNumber`, `double balance`, `accountType`,
`customerId` and a `vector<Transaction>`.  `withdraw(amount)` throws a
`BankException` before touching any member when `amount <= 0` or
`amount > balance`; otherwise it subtracts `amount` from `balance` and
`addTransaction` appends one `(amount, "WITHDRAW", "Cash withdrawal")` entry.
`double` is modelled by `ℚ` (exact arithmetic on the amounts the file uses);
a member function that can throw is modelled as returning the object state
together with an `Option BankException` — the returned state is the object as
the function leaves it, so a throw before any assignment leaves it equal to
the input.  `Transaction`'s `transactionId` and `date` fields come from a
global counter and the wall clock and play no role in the claim; the modelled
fields are the three constructor arguments stored by `Transaction(double
amt, string t, string desc)`. -/

/-- A `Transaction` of 02-Bank-Management.cpp, restricted to the fields set
from the constructor arguments. -/
structure Transaction where
  amount : ℚ
  type : String
  description : String
deriving DecidableEq

/-- The `BankException` of 02-Bank-Management.cpp: a message string. -/
structure BankException where
  message : String
deriving DecidableEq

/-- The data members of `Account` in 02-Bank-Management.cpp. -/
structure Account where
  accountNumber : String
  balance : ℚ
  accountType : String
  customerId : String
  transactions : List Transaction
deriving DecidableEq

/-- `Account::addTransaction`: `transactions.emplace_back(amount, type,
description)`. -/
def Account.addTransaction (a : Account) (amount : ℚ) (ty desc : String) : Account :=
  { a with transactions := a.transactions ++ [⟨amount, ty, desc⟩] }

/-- `Account::withdraw` of 02-Bank-Management.cpp (lines 166-175): throw on a
non-positive amount, throw on insufficient funds, otherwise subtract from the
balance and record one WITHDRAW transaction. -/
def Account.withdraw (a : Account) (amount : ℚ) : Account × Option BankException :=
  if amount ≤ 0 then
    (a, some ⟨"Withdrawal amount must be positive"⟩)
  else if amount > a.balance then
    (a, some ⟨"Insufficient funds"⟩)
  else
    (({ a with balance := a.balance - amount }).addTransaction
        amount "WITHDRAW" "Cash withdrawal", none)

/-- Claim C8: `Account::withdraw(amount)` throws exactly when `amount ≤ 0` or
`amount > balance`; a throw leaves the account unchanged, and a normal return
decreases the balance by exactly `amount` and appends exactly one WITHDRAW
transaction to the history. -/
theorem C8_withdraw_correct (a : Account) (amount : ℚ) :
    ((a.withdraw amount).2.isSome ↔ (amount ≤ 0 ∨ amount > a.balance)) ∧
    ((a.withdraw amount).2.isSome → (a.withdraw amount).1 = a) ∧
    ((a.withdraw amount).2 = none →
      (a.withdraw amount).1.balance = a.balance - amount ∧
      (a.withdraw amount).1.transactions
        = a.transactions ++ [⟨amount, "WITHDRAW", "Cash withdrawal"⟩] ∧
      (a.withdraw amount).1.accountNumber = a.accountNumber ∧
      (a.withdraw amount).1.accountType = a.accountType ∧
      (a.withdraw amount).1.customerId = a.customerId) := by
  rw [Account.withdraw]
  by_cases h1 : amount ≤ 0
  · rw [if_pos h1]
    simp [h1]
  · rw [if_neg h1]
    by_cases h2 : amount > a.balance
    · rw [if_pos h2]
      simp [h1, h2]
    · rw [if_neg h2]
      simp [h1, h2, Account.addTransaction]

/-- Witness for C8: the conclusion instantiated at a concrete account with
balance 100 and a withdrawal of 40. -/
theorem C8_withdraw_correct_witness :
    let a : Account := ⟨"ACC1", 100, "SAVINGS", "CUST1", []⟩
    ((a.withdraw 40).2.isSome ↔ ((40 : ℚ) ≤ 0 ∨ (40 : ℚ) > a.balance)) ∧
    ((a.withdraw 40).2.isSome → (a.withdraw 40).1 = a) ∧
    ((a.withdraw 40).2 = none →
      (a.withdraw 40).1.balance = a.balance - 40 ∧
      (a.withdraw 40).1.transactions
        = a.transactions ++ [⟨40, "WITHDRAW", "Cash withdrawal"⟩] ∧
      (a.withdraw 40).1.accountNumber = a.accountNumber ∧
      (a.withdraw 40).1.accountType = a.accountType ∧
      (a.withdraw 40).1.customerId = a.customerId) :=
  C8_withdraw_correct ⟨"ACC1", 100, "SAVINGS", "CUST1", []⟩ 40

/-! ## 05-Daily-Event-Recurring.cpp: the `Event` time-ordering invariant

`DateTime` holds `year, month, day, hour, minute` with a lexicographic
`operator<`; `operator>=` is `!(*this < other)`.  The `Event` constructor
initialises its members, bumps the static `eventCounter` into `eventId`, then
throws an `EventException` if the priority is out of 1..10 or if
`startTime >= endTime`; `setStartTime`/`setEndTime` throw (before assigning)
when the new value would break `startTime < endTime`.  As with `Account`, a
throwing member function is modelled as returning the object state plus an
`Option EventException`. -/

/-- The five integer fields of `DateTime` in 05-Daily-Event-Recurring.cpp. -/
structure DateTime where
  year : Int
  month : Int
  day : Int
  hour : Int
  minute : Int
deriving DecidableEq

/-- `DateTime::operator<`: lexicographic on year, month, day, hour, minute. -/
def DateTime.ltb (a b : DateTime) : Bool :=
  if a.year ≠ b.year then a.year < b.year
  else if a.month ≠ b.month then a.month < b.month
  else if a.day ≠ b.day then a.day < b.day
  else if a.hour ≠ b.hour then a.hour < b.hour
  else a.minute < b.minute

/-- `DateTime::operator>=`: `!(*this < other)`. -/
def DateTime.geb (a b : DateTime) : Bool := !(DateTime.ltb a b)

/-- The `EventException` of 05-Daily-Event-Recurring.cpp: a message string. -/
structure EventException where
  message : String
deriving DecidableEq

/-- The data members of `Event` in 05-Daily-Event-Recurring.cpp. -/
structure Event where
  eventId : Int
  title : String
  description : String
  startTime : DateTime
  endTime : DateTime
  priority : Int
deriving DecidableEq

/-- The `Event` constructor (lines 234-246): member initialisation, then
`eventCounter++; eventId = eventCounter;`, then the priority range check,
then the `startTime >= endTime` check, each throwing an `EventException`.
The static counter is threaded explicitly; it stays incremented even when the
constructor throws, as in C++. -/
def Event.construct (t desc : String) (start stop : DateTime) (p : Int)
    (eventCounter : Int) : Except EventException Event × Int :=
  let counter := eventCounter + 1
  if p < 1 ∨ p > 10 then
    (.error ⟨"Priority must be between 1 and 10"⟩, counter)
  else if DateTime.geb start stop then
    (.error ⟨"Start time must be before end time"⟩, counter)
  else
    (.ok ⟨counter, t, desc, start, stop, p⟩, counter)

/-- `Event::setStartTime`: throw (leaving the event unchanged) when
`start >= endTime`, otherwise assign `startTime = start`. -/
def Event.setStartTime (e : Event) (start : DateTime) : Event × Option EventException :=
  if DateTime.geb start e.endTime then
    (e, some ⟨"Start time must be before end time"⟩)
  else ({ e with startTime := start }, none)

/-- `Event::setEndTime`: throw (leaving the event unchanged) when
`startTime >= end`, otherwise assign `endTime = end`. -/
def Event.setEndTime (e : Event) (stop : DateTime) : Event × Option EventException :=
  if DateTime.geb e.startTime stop then
    (e, some ⟨"End time must be after start time"⟩)
  else ({ e with endTime := stop }, none)

/-- Claim C10: every `Event` that the constructor returns satisfies
`startTime < endTime`; the constructor throws whenever the start time is not
before the end time; each setter throws exactly when the new value would
violate the ordering, leaves the event unchanged when it throws, and
preserves the invariant in every case. -/
theorem C10_event_invariant (t desc : String) (start stop : DateTime) (p : Int)
    (counter : Int) (e : Event) (newTime : DateTime) :
    (∀ ev, (Event.construct t desc start stop p counter).1 = .ok ev →
        DateTime.ltb ev.startTime ev.endTime = true) ∧
    (DateTime.geb start stop = true →
        (Event.construct t desc start stop p counter).1.isOk = false) ∧
    ((e.setStartTime newTime).2.isSome ↔ DateTime.geb newTime e.endTime = true) ∧
    ((e.setStartTime newTime).2.isSome → (e.setStartTime newTime).1 = e) ∧
    (DateTime.ltb e.startTime e.endTime = true →
        DateTime.ltb (e.setStartTime newTime).1.startTime
          (e.setStartTime newTime).1.endTime = true) ∧
    ((e.setEndTime newTime).2.isSome ↔ DateTime.geb e.startTime newTime = true) ∧
    ((e.setEndTime newTime).2.isSome → (e.setEndTime newTime).1 = e) ∧
    (DateTime.ltb e.startTime e.endTime = true →
        DateTime.ltb (e.setEndTime newTime).1.startTime
          (e.setEndTime newTime).1.endTime = true) := by
  refine ⟨?_, ?_, ?_, ?_, ?_, ?_, ?_, ?_⟩
  · intro ev hok
    rw [Event.construct] at hok
    by_cases h1 : p < 1 ∨ p > 10
    · rw [if_pos h1] at hok
      exact absurd hok (by simp)
    · rw [if_neg h1] at hok
      by_cases h2 : DateTime.geb start stop = true
      · rw [if_pos h2] at hok
        exact absurd hok (by simp)
      · rw [if_neg h2] at hok
        simp only [Except.ok.injEq] at hok
        subst hok
        simpa [DateTime.geb] using h2
  · intro hge
    rw [Event.construct]
    by_cases h1 : p < 1 ∨ p > 10
    · rw [if_pos h1]
      rfl
    · rw [if_neg h1, if_pos hge]
      rfl
  · rw [Event.setStartTime]
    by_cases h : DateTime.geb newTime e.endTime = true
    · rw [if_pos h]
      simp [h]
    · rw [if_neg h]
      simp [h]
  · rw [Event.setStartTime]
    by_cases h : DateTime.geb newTime e.endTime = true
    · rw [if_pos h]
      simp
    · rw [if_neg h]
      simp
  · intro hinv
    rw [Event.setStartTime]
    by_cases h : DateTime.geb newTime e.endTime = true
    · rw [if_pos h]
      exact hinv
    · rw [if_neg h]
      simpa [DateTime.geb] using h
  · rw [Event.setEndTime]
    by_cases h : DateTime.geb e.startTime newTime = true
    · rw [if_pos h]
      simp [h]
    · rw [if_neg h]
      simp [h]
  · rw [Event.setEndTime]
    by_cases h : DateTime.geb e.startTime newTime = true
    · rw [if_pos h]
      simp
    · rw [if_neg h]
      simp
  · intro hinv
    rw [Event.setEndTime]
    by_cases h : DateTime.geb e.startTime newTime = true
    · rw [if_pos h]
      exact hinv
    · rw [if_neg h]
      simpa [DateTime.geb] using h

/-- Witness for C10: the constructor invariant instantiated at a concrete
event from 9:00 to 10:00. -/
theorem C10_event_invariant_witness :
    DateTime.ltb (DateTime.mk 2024 1 1 9 0) (DateTime.mk 2024 1 1 10 0) = true :=
  (C10_event_invariant "Standup" "daily" (DateTime.mk 2024 1 1 9 0)
      (DateTime.mk 2024 1 1 10 0) 5 0
      (Event.mk 1 "Standup" "daily" (DateTime.mk 2024 1 1 9 0)
        (DateTime.mk 2024 1 1 10 0) 5)
      (DateTime.mk 2024 1 1 9 30)).1
    (Event.mk 1 "Standup" "daily" (DateTime.mk 2024 1 1 9 0)
      (DateTime.mk 2024 1 1 10 0) 5)
    (by rfl)

/-- Witness for C2 at the example of the problem statement:
s = "abc", t = "ahbgdc". -/
theorem C2_isSubsequence_correct_witness :
    (isSubsequence ['a', 'b', 'c'] ['a', 'h', 'b', 'g', 'd', 'c'] = true ↔
      List.Sublist ['a', 'b', 'c'] ['a', 'h', 'b', 'g', 'd', 'c']) ∧
    isSubsequence [] ['a', 'h', 'b', 'g', 'd', 'c'] = true :=
  C2_isSubsequence_correct ['a', 'b', 'c'] ['a', 'h', 'b', 'g', 'd', 'c']

/-- Witness for C3 at the one-node tree. -/
theorem C3_isSymmetric_amended_witness :
    isSymmetric (TreeNode.node 1 TreeNode.nil TreeNode.nil) = true ↔
      mirror (TreeNode.node 1 TreeNode.nil TreeNode.nil)
        = TreeNode.node 1 TreeNode.nil TreeNode.nil :=
  C3_isSymmetric_amended.2 1 TreeNode.nil TreeNode.nil

/-! ## LeetCode problem 11: Merge-SortedARR.cpp

`Solution::merge(vector<int>& nums1, int m, vector<int>& nums2, int n)` merges
backwards: `i = m-1`, `j = n-1`, `endSize = m+n-1`; while `j >= 0` it writes
the larger of `nums1[i]` and `nums2[j]` at `nums1[endSize]`, decrementing the
index it consumed and `endSize`.  The loop indices are C++ `int`s that go
negative, so they are modelled as `Int` with `toNat` at each (guarded) vector
access; `vector<int>& nums1` is state passed through the loop. -/

/-- The while loop of `Solution::merge`: state `(nums1, i, j, endSize)`;
while `j >= 0`, if `i >= 0 && nums1[i] > nums2[j]` then `nums1[endSize] =
nums1[i]; i--` else `nums1[endSize] = nums2[j]; j--`, and `endSize--`. -/
def mergeLoop (nums1 nums2 : List Int) (i j endSize : Int) : List Int :=
  if hj : j ≥ 0 then
    if hc : i ≥ 0 ∧ nums1.getD i.toNat 0 > nums2.getD j.toNat 0 then
      mergeLoop (nums1.set endSize.toNat (nums1.getD i.toNat 0)) nums2
        (i - 1) j (endSize - 1)
    else
      mergeLoop (nums1.set endSize.toNat (nums2.getD j.toNat 0)) nums2
        i (j - 1) (endSize - 1)
  else nums1
termination_by (i + 1).toNat + (j + 1).toNat
decreasing_by all_goals omega

/-- `Solution::merge` of 11-Merge-SortedARR.cpp: run the backward-merge loop
from `i = m-1`, `j = n-1`, `endSize = m+n-1` and return the final `nums1`. -/
def merge (nums1 : List Int) (m : Int) (nums2 : List Int) (n : Int) : List Int :=
  mergeLoop nums1 nums2 (m - 1) (n - 1) (m + n - 1)

/-- The loop state reached from valid inputs, with the two consumed-prefix
lengths as natural numbers: `a` elements of `nums1` and `b` of `nums2` are
still unconsumed, so `i = a-1`, `j = b-1`, `endSize = a+b-1`. -/
def mergeLoopN (L B : List Int) (a b : Nat) : List Int :=
  mergeLoop L B ((a : Int) - 1) ((b : Int) - 1) ((a : Int) + (b : Int) - 1)

/-- Merging two descending-from-the-head lists, largest first — the order in
which the backward loop emits elements (top of `nums1` first on strict
greater, else top of `nums2`); once `nums2` is exhausted the rest of `nums1`
stays in place. -/
def mergeDesc : List Int → List Int → List Int
  | ra, [] => ra
  | [], rb => rb
  | x :: ra, y :: rb =>
      if y < x then x :: mergeDesc ra (y :: rb) else y :: mergeDesc (x :: ra) rb

theorem mergeDesc_nil_right (ra : List Int) : mergeDesc ra [] = ra := by
  simp [mergeDesc]

theorem mergeDesc_nil_left (rb : List Int) : mergeDesc [] rb = rb := by
  cases rb <;> simp [mergeDesc]

theorem mergeDesc_cons_of_lt (x y : Int) (ra rb : List Int) (h : y < x) :
    mergeDesc (x :: ra) (y :: rb) = x :: mergeDesc ra (y :: rb) := by
  simp [mergeDesc, h]

theorem mergeDesc_cons_of_ge (x y : Int) (ra rb : List Int) (h : ¬ y < x) :
    mergeDesc (x :: ra) (y :: rb) = y :: mergeDesc (x :: ra) rb := by
  simp [mergeDesc, h]

/-- `mergeDesc` emits exactly the elements of its two arguments. -/
theorem mergeDesc_perm (ra rb : List Int) : (mergeDesc ra rb).Perm (ra ++ rb) := by
  induction ra, rb using mergeDesc.induct with
  | case1 ra => simp [mergeDesc_nil_right]
  | case2 rb h => simp [mergeDesc_nil_left]
  | case3 x ra y rb hlt ih =>
    rw [mergeDesc_cons_of_lt x y ra rb hlt]
    exact ih.cons x
  | case4 x ra y rb hge ih =>
    rw [mergeDesc_cons_of_ge x y ra rb hge]
    exact (ih.cons y).trans List.perm_middle.symm

theorem mergeDesc_length (ra rb : List Int) :
    (mergeDesc ra rb).length = ra.length + rb.length := by
  have := (mergeDesc_perm ra rb).length_eq
  simpa using this

/-- Merging two lists that descend from the head yields a list that descends
from the head. -/
theorem mergeDesc_sorted (ra rb : List Int)
    (ha : List.Pairwise (fun a b => b ≤ a) ra)
    (hb : List.Pairwise (fun a b => b ≤ a) rb) :
    List.Pairwise (fun a b => b ≤ a) (mergeDesc ra rb) := by
  induction ra, rb using mergeDesc.induct with
  | case1 ra => rwa [mergeDesc_nil_right]
  | case2 rb h => rwa [mergeDesc_nil_left]
  | case3 x ra y rb hlt ih =>
    rw [mergeDesc_cons_of_lt x y ra rb hlt]
    rw [List.pairwise_cons] at ha ⊢
    refine ⟨fun b hbmem => ?_, ih ha.2 hb⟩
    rcases List.mem_append.mp ((mergeDesc_perm ra (y :: rb)).mem_iff.mp hbmem)
      with hmem | hmem
    · exact ha.1 b hmem
    · rw [List.mem_cons] at hmem
      rcases hmem with rfl | hmem
      · exact le_of_lt hlt
      · exact le_trans (List.rel_of_pairwise_cons hb hmem) (le_of_lt hlt)
  | case4 x ra y rb hge ih =>
    rw [mergeDesc_cons_of_ge x y ra rb hge]
    rw [List.pairwise_cons] at hb ⊢
    refine ⟨fun b hbmem => ?_, ih ha hb.2⟩
    rcases List.mem_append.mp ((mergeDesc_perm (x :: ra) rb).mem_iff.mp hbmem)
      with hmem | hmem
    · rw [List.mem_cons] at hmem
      rcases hmem with rfl | hmem
      · omega
      · exact le_trans (List.rel_of_pairwise_cons ha hmem) (by omega)
    · exact hb.1 b hmem

/-- Writing at a position at or beyond `n` leaves the first `n` elements
untouched. -/
theorem take_set_of_le (l : List Int) (m n : Nat) (x : Int) (h : n ≤ m) :
    (l.set m x).take n = l.take n := by
  by_cases hm : m < l.length
  · rw [List.set_eq_take_append_cons_drop, if_pos hm, List.take_append_eq_append_take]
    have hlen : (l.take m).length = m := by
      rw [List.length_take]
      omega
    rw [hlen, List.take_take]
    have h1 : n ⊓ m = n := by omega
    have h2 : n - m = 0 := by omega
    rw [h1, h2, List.take_zero, List.append_nil]
  · rw [List.set_eq_of_length_le (by omega)]

/-- Dropping up to the written position exposes the written value followed by
the untouched tail. -/
theorem drop_set_self (l : List Int) (m : Nat) (x : Int) (h : m < l.length) :
    (l.set m x).drop m = x :: l.drop (m + 1) := by
  rw [List.set_eq_take_append_cons_drop, if_pos h, List.drop_append_eq_append_drop]
  have hlen : (l.take m).length = m := by
    rw [List.length_take]
    omega
  rw [hlen, Nat.sub_self, List.drop_take, Nat.sub_self, List.take_zero,
    List.nil_append, List.drop_zero]

/-- `take (n+1)` is `take n` plus the element at `n`. -/
theorem take_succ_getD (l : List Int) (n : Nat) (h : n < l.length) :
    l.take (n + 1) = l.take n ++ [l.getD n 0] := by
  rw [List.take_succ, List.getElem?_eq_getElem h, List.getD_eq_getElem l 0 h]
  rfl

/-- Exhausted `nums2` (`j = -1`): the loop exits at once. -/
theorem mergeLoopN_zero (L B : List Int) (a : Nat) : mergeLoopN L B a 0 = L := by
  rw [mergeLoopN, mergeLoop, dif_neg (by omega)]

/-- Exhausted `nums1` prefix (`i = -1`) with `j = b ≥ 0`: copy `nums2[b]` down
to position `b` and continue. -/
theorem mergeLoopN_zero_succ (L B : List Int) (b : Nat) :
    mergeLoopN L B 0 (b + 1) = mergeLoopN (L.set b (B.getD b 0)) B 0 b := by
  rw [mergeLoopN, mergeLoopN, mergeLoop]
  rw [dif_pos (by omega)]
  rw [dif_neg (fun hc => absurd hc.1 (by omega))]
  have es : (((0 : Nat) : Int) + ((b + 1 : Nat) : Int) - 1).toNat = b := by
    push_cast
    omega
  have eg : (((b + 1 : Nat) : Int) - 1).toNat = b := by
    push_cast
    omega
  have ej : ((b + 1 : Nat) : Int) - 1 - 1 = ((b : Nat) : Int) - 1 := by
    push_cast
    ring
  have ee : ((0 : Nat) : Int) + ((b + 1 : Nat) : Int) - 1 - 1
      = ((0 : Nat) : Int) + ((b : Nat) : Int) - 1 := by
    push_cast
    ring
  rw [es, eg, ej, ee]

/-- Both sides live and `nums1[a] > nums2[b]`: move `nums1[a]` up to position
`a+b+1`. -/
theorem mergeLoopN_succ_succ_gt (L B : List Int) (a b : Nat)
    (h : L.getD a 0 > B.getD b 0) :
    mergeLoopN L B (a + 1) (b + 1)
      = mergeLoopN (L.set (a + b + 1) (L.getD a 0)) B a (b + 1) := by
  rw [mergeLoopN, mergeLoopN, mergeLoop]
  rw [dif_pos (by omega)]
  rw [dif_pos ⟨by omega, by
    have h1 : (((a + 1 : Nat) : Int) - 1).toNat = a := by push_cast; omega
    have h2 : (((b + 1 : Nat) : Int) - 1).toNat = b := by push_cast; omega
    rw [h1, h2]
    exact h⟩]
  have es : (((a + 1 : Nat) : Int) + ((b + 1 : Nat) : Int) - 1).toNat = a + b + 1 := by
    push_cast
    omega
  have eg : (((a + 1 : Nat) : Int) - 1).toNat = a := by
    push_cast
    omega
  have ei : ((a + 1 : Nat) : Int) - 1 - 1 = ((a : Nat) : Int) - 1 := by
    push_cast
    ring
  have ee : ((a + 1 : Nat) : Int) + ((b + 1 : Nat) : Int) - 1 - 1
      = ((a : Nat) : Int) + ((b + 1 : Nat) : Int) - 1 := by
    push_cast
    ring
  rw [es, eg, ei, ee]

/-- Both sides live and `nums1[a] <= nums2[b]` (or `nums1` exhausted in the
general loop): move `nums2[b]` up to position `a+b+1`. -/
theorem mergeLoopN_succ_succ_le (L B : List Int) (a b : Nat)
    (h : ¬ L.getD a 0 > B.getD b 0) :
    mergeLoopN L B (a + 1) (b + 1)
      = mergeLoopN (L.set (a + b + 1) (B.getD b 0)) B (a + 1) b := by
  rw [mergeLoopN, mergeLoopN, mergeLoop]
  rw [dif_pos (by omega)]
  rw [dif_neg (by
    intro hc
    apply h
    have h1 : (((a + 1 : Nat) : Int) - 1).toNat = a := by push_cast; omega
    have h2 : (((b + 1 : Nat) : Int) - 1).toNat = b := by push_cast; omega
    rw [h1, h2] at hc
    exact hc.2)]
  have es : (((a + 1 : Nat) : Int) + ((b + 1 : Nat) : Int) - 1).toNat = a + b + 1 := by
    push_cast
    omega
  have eg : (((b + 1 : Nat) : Int) - 1).toNat = b := by
    push_cast
    omega
  have ej : ((b + 1 : Nat) : Int) - 1 - 1 = ((b : Nat) : Int) - 1 := by
    push_cast
    ring
  have ee : ((a + 1 : Nat) : Int) + ((b + 1 : Nat) : Int) - 1 - 1
      = ((a + 1 : Nat) : Int) + ((b : Nat) : Int) - 1 := by
    push_cast
    ring
  rw [es, eg, ej, ee]

/-- Characterisation of the backward-merge loop: starting from the state with
`a` unconsumed `nums1` elements and `b` unconsumed `nums2` elements, the loop
replaces the first `a + b` positions with the backward merge of the two
unconsumed prefixes and leaves the tail alone. -/
theorem mergeLoopN_eq : ∀ (b a : Nat) (L B : List Int), b ≤ B.length →
    a + b ≤ L.length →
    mergeLoopN L B a b
      = (mergeDesc ((L.take a).reverse) ((B.take b).reverse)).reverse
          ++ L.drop (a + b) := by
  intro b
  induction b with
  | zero =>
    intro a L B hb hab
    rw [mergeLoopN_zero, List.take_zero, List.reverse_nil, mergeDesc_nil_right,
      List.reverse_reverse, Nat.add_zero]
    exact (List.take_append_drop a L).symm
  | succ b ihb =>
    intro a
    induction a with
    | zero =>
      intro L B hb hab
      rw [mergeLoopN_zero_succ,
        ihb 0 (L.set b (B.getD b 0)) B (by omega) (by rw [List.length_set]; omega)]
      simp only [List.take_zero, List.reverse_nil, mergeDesc_nil_left,
        List.reverse_reverse, Nat.zero_add]
      rw [drop_set_self L b (B.getD b 0) (by omega),
        take_succ_getD B b (by omega),
        List.append_assoc, List.singleton_append]
    | succ a iha =>
      intro L B hb hab
      by_cases hcmp : L.getD a 0 > B.getD b 0
      · rw [mergeLoopN_succ_succ_gt L B a b hcmp,
          iha (L.set (a + b + 1) (L.getD a 0)) B hb (by rw [List.length_set]; omega),
          take_set_of_le L (a + b + 1) a _ (by omega),
          show a + (b + 1) = a + b + 1 from by omega,
          drop_set_self L (a + b + 1) _ (by omega)]
        rw [take_succ_getD L a (by omega), take_succ_getD B b (by omega)]
        simp only [List.reverse_append, List.reverse_singleton, List.singleton_append]
        rw [mergeDesc_cons_of_lt (L.getD a 0) (B.getD b 0) _ _ hcmp,
          List.reverse_cons,
          show a + 1 + (b + 1) = a + b + 1 + 1 from by omega,
          List.append_assoc, List.singleton_append]
      · rw [mergeLoopN_succ_succ_le L B a b hcmp,
          ihb (a + 1) (L.set (a + b + 1) (B.getD b 0)) B (by omega)
            (by rw [List.length_set]; omega),
          take_set_of_le L (a + b + 1) (a + 1) _ (by omega),
          show a + 1 + b = a + b + 1 from by omega,
          drop_set_self L (a + b + 1) _ (by omega)]
        rw [take_succ_getD L a (by omega), take_succ_getD B b (by omega)]
        simp only [List.reverse_append, List.reverse_singleton, List.singleton_append]
        rw [mergeDesc_cons_of_ge (L.getD a 0) (B.getD b 0) _ _ hcmp,
          List.reverse_cons,
          show a + 1 + (b + 1) = a + b + 1 + 1 from by omega,
          List.append_assoc, List.singleton_append]

/-- `Solution::merge(nums1, m, nums2, n)` is the loop started at the full
prefixes. -/
theorem merge_eq_mergeLoopN (L B : List Int) (m n : Nat) :
    merge L (m : Int) B (n : Int) = mergeLoopN L B m n := by
  rw [merge, mergeLoopN]

/-- Claim C1: for a valid call — the first `m` entries of `nums1` sorted,
`nums1` of length `m+n`, `nums2` of length `n` sorted — the updated `nums1`
returned by `Solution::merge` (the final value of the by-reference parameter)
is sorted in non-decreasing order, is a permutation of the `m` kept elements
of `nums1` together with `nums2`, and still has length `m+n`, so the merge
happened in place over the whole of `nums1`. -/
theorem C1_merge_correct (nums1 nums2 : List Int) (m n : Nat)
    (hlen1 : nums1.length = m + n) (hlen2 : nums2.length = n)
    (hs1 : List.Sorted (· ≤ ·) (nums1.take m)) (hs2 : List.Sorted (· ≤ ·) nums2) :
    List.Sorted (· ≤ ·) (merge nums1 (m : Int) nums2 (n : Int)) ∧
    (merge nums1 (m : Int) nums2 (n : Int)).Perm (nums1.take m ++ nums2) ∧
    (merge nums1 (m : Int) nums2 (n : Int)).length = nums1.length := by
  rw [merge_eq_mergeLoopN, mergeLoopN_eq n m nums1 nums2 (by omega) (by omega),
    List.drop_eq_nil_of_le (by omega), List.append_nil,
    List.take_of_length_le (le_of_eq hlen2)]
  refine ⟨?_, ?_, ?_⟩
  · unfold List.Sorted at hs1 hs2 ⊢
    rw [List.pairwise_reverse]
    exact mergeDesc_sorted _ _ (List.pairwise_reverse.mpr hs1)
      (List.pairwise_reverse.mpr hs2)
  · exact (List.reverse_perm _).trans ((mergeDesc_perm _ _).trans
      (List.Perm.append (List.reverse_perm _) (List.reverse_perm _)))
  · rw [List.length_reverse, mergeDesc_length, List.length_reverse,
      List.length_reverse, List.length_take, Nat.min_eq_left (by omega)]
    omega

/-- Witness for C1 at the example of the problem statement:
nums1 = [1,2,3,0,0,0], m = 3, nums2 = [2,5,6], n = 3. -/
theorem C1_merge_correct_witness :
    ([1, 2, 3, 0, 0, 0] : List Int).length = 3 + 3 ∧
    ([2, 5, 6] : List Int).length = 3 ∧
    List.Sorted (· ≤ ·) (([1, 2, 3, 0, 0, 0] : List Int).take 3) ∧
    List.Sorted (· ≤ ·) ([2, 5, 6] : List Int) ∧
    (List.Sorted (· ≤ ·)
        (merge [1, 2, 3, 0, 0, 0] ((3 : Nat) : Int) [2, 5, 6] ((3 : Nat) : Int)) ∧
      (merge [1, 2, 3, 0, 0, 0] ((3 : Nat) : Int) [2, 5, 6] ((3 : Nat) : Int)).Perm
        (([1, 2, 3, 0, 0, 0] : List Int).take 3 ++ [2, 5, 6]) ∧
      (merge [1, 2, 3, 0, 0, 0] ((3 : Nat) : Int) [2, 5, 6]
          ((3 : Nat) : Int)).length = ([1, 2, 3, 0, 0, 0] : List Int).length) :=
  ⟨by decide, by decide, by decide, by decide,
    C1_merge_correct [1, 2, 3, 0, 0, 0] [2, 5, 6] 3 3
      (by decide) (by decide) (by decide) (by decide)⟩
